import Mathlib

/-!
Shallow embedding of the KBFS block-put pipeline (libkbfs/block_ops_constrained.go)
and of the stall-injection test wrappers (libkbfs/test_stallers.go).

Conventions of the embedding:
* Go errors become `Option BServerError` (`none` = nil error), with one
  constructor per concrete error type that the source inspects by type
  assertion.
* The remote block server is a response function from calls to optional
  errors; the call issued is recorded so the theorems can speak about which
  remote operations were performed.  The response function additionally takes
  a `Bool` saying whether the shared group context has been cancelled at the
  time of the call, since the delegate may react to cancellation.
* The worker pool of `doBlockPuts` is serialized: entries are pulled from the
  shared queue in order, one `doOneBlockPut` at a time.  Workers interact only
  through (a) the errgroup's first-error / context-cancellation state and
  (b) the `blocksToRemoveChan` sends, and both are threaded through the
  serialized run, so the observable outcomes of the claims are preserved.
* Go `int` (64-bit) arithmetic in the throttle is modelled with explicit
  wrap-around at 2^64 (two's complement), and the `uint32` conversion in
  `SetEncodedSize` with `% 2^32`.
-/

namespace KBFS

/-- Errors returned by the block server and friends.  Each constructor stands
for one concrete Go error type that the source discriminates on:
`kbfsblock.BServerErrorBlockArchived`, `...BlockDeleted`,
`...BlockNonExistent`, `...MaxRefExceeded`, `...OverQuota` (with its
`Usage`, `Limit`, `Throttled` fields), `context.Canceled`, and a catch-all
for any other error value. -/
inductive BServerError where
  | blockArchived : BServerError
  | blockDeleted : BServerError
  | blockNonExistent : BServerError
  | maxRefExceeded : BServerError
  | overQuota (usage limit : Int) (throttled : Bool) : BServerError
  | canceled : BServerError
  | other (code : Nat) : BServerError
deriving DecidableEq

/-- isRecoverableBlockError from block_ops_constrained.go: the four
type-assertions for archived / deleted / non-existent / max-ref-exceeded. -/
def isRecoverableBlockError : BServerError → Bool
  | .blockArchived => true
  | .blockDeleted => true
  | .blockNonExistent => true
  | .maxRefExceeded => true
  | _ => false

/-- BlockPointer: content ID, opaque block context, and reference nonce. -/
structure BlockPointer where
  id : Nat
  bctx : Nat
  refNonce : Nat
deriving DecidableEq

/-- kbfsblock.ZeroRefNonce. -/
def zeroRefNonce : Nat := 0

/-- ReadyBlockData: the serialized encrypted buffer plus the server half of
the block key. -/
structure ReadyBlockData where
  buf : List Nat
  serverHalf : Nat
deriving DecidableEq

/-- The in-memory `Block` interface value carried by a blockState.  The source
type-asserts it against `*FileBlock` and reads its `IsInd` field; any other
concrete block type (e.g. `*DirBlock`) falls in the second constructor.  The
`uid` field stands for the heap identity that Go's interface equality
(`bs.block == fblock`) compares. -/
inductive Block where
  | file (isInd : Bool) (uid : Nat) : Block
  | dir (uid : Nat) : Block
deriving DecidableEq

/-- blockState: one pending put.  `syncedCb = none` models a nil callback;
`syncedCb = some r` models a callback that, when invoked, returns `r`. -/
structure blockState where
  blockPtr : BlockPointer
  block : Block
  readyBlockData : ReadyBlockData
  syncedCb : Option (Option BServerError)
deriving DecidableEq

/-- blockPutState: the batch handed to doBlockPuts. -/
structure blockPutState where
  blockStates : List blockState
deriving DecidableEq

/-- One remote block-server call, as issued by putBlockToServer.  A full
`Put` carries the payload buffer and the server key half; `AddBlockReference`
carries neither. -/
inductive BServCall where
  | put (tlfID : Nat) (id : Nat) (bctx : Nat) (buf : List Nat) (serverHalf : Nat) : BServCall
  | addBlockReference (tlfID : Nat) (id : Nat) (bctx : Nat) : BServCall
deriving DecidableEq

/-- putBlockToServer: put the full block when the refnonce is zero, otherwise
just add a reference to the existing block.  Returns the call trace (exactly
one call) together with the server's response to it. -/
def putBlockToServer (bserv : BServCall → Option BServerError) (tlfID : Nat)
    (blockPtr : BlockPointer) (readyBlockData : ReadyBlockData) :
    List BServCall × Option BServerError :=
  if blockPtr.refNonce = zeroRefNonce then
    ([BServCall.put tlfID blockPtr.id blockPtr.bctx readyBlockData.buf
        readyBlockData.serverHalf],
     bserv (BServCall.put tlfID blockPtr.id blockPtr.bctx readyBlockData.buf
        readyBlockData.serverHalf))
  else
    ([BServCall.addBlockReference tlfID blockPtr.id blockPtr.bctx],
     bserv (BServCall.addBlockReference tlfID blockPtr.id blockPtr.bctx))

/-- The OverQuotaWarning reported to the Reporter sink (its Usage and Limit
payload). -/
structure OverQuotaWarning where
  usage : Int
  limit : Int
deriving DecidableEq

/-- PutBlockCheckQuota: forwards to putBlockToServer; a non-throttled
over-quota error is downgraded to a reported warning and a nil error, any
other outcome is passed through.  Second component is the list of warnings
handed to the Reporter. -/
def PutBlockCheckQuota (bserv : BServCall → Option BServerError) (tlfID : Nat)
    (blockPtr : BlockPointer) (readyBlockData : ReadyBlockData) :
    List BServCall × List OverQuotaWarning × Option BServerError :=
  match putBlockToServer bserv tlfID blockPtr readyBlockData with
  | (calls, some (BServerError.overQuota usage limit throttled)) =>
      if throttled then
        (calls, [], some (BServerError.overQuota usage limit throttled))
      else
        (calls, [⟨usage, limit⟩], none)
  | (calls, e) => (calls, [], e)

/-- Observable outcome of doOneBlockPut: the remote calls issued, the quota
warnings reported, whether the entry's syncedCb was invoked, the values sent
on blocksToRemoveChan, and the error returned to the worker. -/
structure OnePutResult where
  calls : List BServCall
  warnings : List OverQuotaWarning
  cbInvoked : Bool
  chanSends : List Block
  err : Option BServerError
deriving DecidableEq

/-- doOneBlockPut: PutBlockCheckQuota, then (on success) the syncedCb, then —
if the resulting error is recoverable and the entry's block is a non-indirect
FileBlock — a send of that block on blocksToRemoveChan. -/
def doOneBlockPut (bserv : BServCall → Option BServerError) (tlfID : Nat)
    (bs : blockState) : OnePutResult :=
  match PutBlockCheckQuota bserv tlfID bs.blockPtr bs.readyBlockData with
  | (calls, warnings, err0) =>
    let afterCb : Bool × Option BServerError :=
      match err0, bs.syncedCb with
      | none, some cbResult => (true, cbResult)
      | e, _ => (false, e)
    let sends : List Block :=
      match afterCb.2 with
      | some e =>
          if isRecoverableBlockError e then
            match bs.block with
            | Block.file false _ => [bs.block]
            | _ => []
          else []
      | none => []
    ⟨calls, warnings, afterCb.1, sends, afterCb.2⟩

/-- Modelled from the spec: the fixed system-wide maximum on parallel block
puts that doBlockPuts compares the batch size against ("a fixed maximum
worker count"); its defining constant lies outside the excerpted source.  We
use the value 10; the verified properties depend only on its positivity. -/
def maxParallelBlockPuts : Nat := 10

/-- numWorkers as computed at the top of doBlockPuts. -/
def numWorkersFor (bps : blockPutState) : Nat :=
  if bps.blockStates.length > maxParallelBlockPuts then maxParallelBlockPuts
  else bps.blockStates.length

/-- Observable outcome of the worker-pool phase of doBlockPuts.
`processed` records, in pull order, each entry that some worker ran
doOneBlockPut on together with the error that run returned; `firstErr` is
what `eg.Wait()` returns (the first non-nil worker error). -/
structure RunResult where
  processed : List (blockState × Option BServerError)
  calls : List BServCall
  warnings : List OverQuotaWarning
  cbInvoked : List blockState
  chanSends : List Block
  firstErr : Option BServerError
deriving DecidableEq

/-- The worker-pool phase of doBlockPuts.  The pool is serialized: entries
are pulled from the shared `blocks` channel in order.  `alive` is the number
of workers still in their pull loop: a worker that gets an error from
doOneBlockPut returns it to the errgroup and exits, which records the first
such error and cancels the shared group context (the `canceled` flag handed
to the server response function for every later call).  When every worker has
exited (`alive = 0`), the remaining entries are never pulled. -/
def runWorkers (resp : Bool → BServCall → Option BServerError) (tlfID : Nat) :
    List blockState → Nat → Bool → Option BServerError → RunResult
  | [], _, _, firstErr => ⟨[], [], [], [], [], firstErr⟩
  | bs :: rest, alive, canceled, firstErr =>
    if alive = 0 then ⟨[], [], [], [], [], firstErr⟩
    else
      let r := doOneBlockPut (resp canceled) tlfID bs
      let tail :=
        match r.err with
        | none => runWorkers resp tlfID rest alive canceled firstErr
        | some e =>
            runWorkers resp tlfID rest (alive - 1) true
              (match firstErr with
               | none => some e
               | some e0 => some e0)
      ⟨(bs, r.err) :: tail.processed,
       r.calls ++ tail.calls,
       r.warnings ++ tail.warnings,
       (if r.cbInvoked then [bs] else []) ++ tail.cbInvoked,
       r.chanSends ++ tail.chanSends,
       tail.firstErr⟩

/-- Block-cache mutations performed by the cleanup phase of doBlockPuts. -/
inductive CacheOp where
  | deleteKnownPtr (tlfID : Nat) (block : Block) : CacheOp
  | deleteTransient (ptr : BlockPointer) (tlfID : Nat) : CacheOp
deriving DecidableEq

/-- The drain loop of doBlockPuts over the closed blocksToRemoveChan: for
each received block, every batch entry whose `block` is the same value
contributes its pointer to `blocksToRemove`, then the cache is asked to
DeleteKnownPtr that block and DeleteTransient the last appended pointer.
The source indexes `blocksToRemove[len(blocksToRemove)-1]`, which exists
whenever the channel only carries blocks of the batch (always the case in
doBlockPuts); the `none` branch mirrors the otherwise-panicking empty case. -/
def drainBlocksToRemove (blockStates : List blockState) (tlfID : Nat) :
    List Block → List BlockPointer → List BlockPointer × List CacheOp
  | [], acc => (acc, [])
  | fblock :: rest, acc =>
    let matched :=
      (blockStates.filter (fun bs => decide (bs.block = fblock))).map
        (fun bs => bs.blockPtr)
    let acc2 := acc ++ matched
    let ops : List CacheOp :=
      match acc2.getLast? with
      | some p => [CacheOp.deleteKnownPtr tlfID fblock,
                   CacheOp.deleteTransient p tlfID]
      | none => [CacheOp.deleteKnownPtr tlfID fblock]
    let r := drainBlocksToRemove blockStates tlfID rest acc2
    (r.1, ops ++ r.2)

/-- isRecoverableBlockError lifted to the nil-able error that eg.Wait
returns: a nil error is not recoverable. -/
def isRecoverableOpt : Option BServerError → Bool
  | some e => isRecoverableBlockError e
  | none => false

/-- Everything observable about one doBlockPuts execution. -/
structure DoBlockPutsResult where
  blocksToRemove : List BlockPointer
  err : Option BServerError
  processed : List (blockState × Option BServerError)
  calls : List BServCall
  warnings : List OverQuotaWarning
  cbInvoked : List blockState
  chanSends : List Block
  cacheOps : List CacheOp
deriving DecidableEq

/-- doBlockPuts: run the bounded worker pool over the batch, then — only when
the batch error is recoverable — drain blocksToRemoveChan, resolving each
flagged block back to its pointers and deleting it from the block cache. -/
def doBlockPuts (resp : Bool → BServCall → Option BServerError) (tlfID : Nat)
    (bps : blockPutState) : DoBlockPutsResult :=
  let r := runWorkers resp tlfID bps.blockStates (numWorkersFor bps) false none
  let cleanup :=
    if isRecoverableOpt r.firstErr then
      drainBlocksToRemove bps.blockStates tlfID r.chanSends []
    else ([], [])
  ⟨cleanup.1, r.firstErr, r.processed, r.calls, r.warnings, r.cbInvoked,
   r.chanSends, cleanup.2⟩

/-! The bandwidth-throttling decorator BlockOpsConstrained.  Go `int`
arithmetic is 64-bit two's complement; `wrap64` reduces an unbounded integer
to that range. -/

/-- Reduce an integer to the 64-bit two's-complement range. -/
def wrap64 (x : Int) : Int := (x + 2 ^ 63) % 2 ^ 64 - 2 ^ 63

/-- Go 64-bit multiplication. -/
def goMul (a b : Int) : Int := wrap64 (a * b)

/-- Go 64-bit division (truncated toward zero).  The source panics on a zero
divisor, which is reachable here only after the multiplication has wrapped
to zero; we return 0 in that case. -/
def goQuot (a b : Int) : Int := if b = 0 then 0 else wrap64 (a.tdiv b)

/-- int(time.Second) in nanoseconds. -/
def timeSecond : Int := 1000000000

/-- BlockOpsConstrained: the delegate-relaying throttle with a configured
bandwidth in KBps. -/
structure BlockOpsConstrained where
  bwKBps : Int

/-- BlockOpsConstrained.delay: with a non-positive rate return immediately
with no delay (not even a context check); otherwise compute
`size * int(time.Second) / (bwKBps * 1024)` in Go int arithmetic, sleep that
many nanoseconds, and then report the context's cancellation state.  First
component is the computed delay in nanoseconds, second the returned error. -/
def BlockOpsConstrained.delay (b : BlockOpsConstrained) (canceled : Bool)
    (size : Int) : Int × Option BServerError :=
  if b.bwKBps ≤ 0 then (0, none)
  else
    (goQuot (goMul size timeSecond) (goMul b.bwKBps 1024),
     if canceled then some BServerError.canceled else none)

/-- BlockOpsConstrained.Put: delay first, and forward to the delegate only
when the delay did not end in cancellation.  First component is the delay
slept, second the error returned to the caller. -/
def BlockOpsConstrained.Put (b : BlockOpsConstrained) (canceled : Bool)
    (delegatePut : Option BServerError) (size : Int) :
    Int × Option BServerError :=
  match b.delay canceled size with
  | (d, some e) => (d, some e)
  | (d, none) => (d, delegatePut)

/-! assembleBlock: verify the buffer's content hash against the pointer's
block ID, fetch the TLF decryption key, unmask the block key with the server
half, decode, decrypt, and record the encoded size on the block.  The crypto
collaborators are abstracted as an environment of opaque functions; the
step trace records which collaborators were consulted. -/

/-- The block produced by assembleBlock.  `encodedSize` is the uint32 field
set by `SetEncodedSize`. -/
structure AssembledBlock where
  contents : List Nat
  encodedSize : Nat
deriving DecidableEq

/-- Failures of assembleBlock, one per failing collaborator.  `hashMismatch`
is the integrity-violation error from kbfsblock.VerifyID. -/
inductive AssembleError where
  | hashMismatch : AssembleError
  | keyError : AssembleError
  | decodeError : AssembleError
  | decryptError : AssembleError
deriving DecidableEq

/-- The collaborator calls assembleBlock can make, in order. -/
inductive AssembleStep where
  | verifyID : AssembleStep
  | getTLFCryptKey : AssembleStep
  | decode : AssembleStep
  | decryptBlock : AssembleStep
deriving DecidableEq

/-- The collaborators of assembleBlock: the content hash used by VerifyID,
the key service, the codec, and the crypto engine (an Option result models a
fallible call). -/
structure AssembleEnv where
  hash : List Nat → Nat
  getTLFCryptKeyForBlockDecryption : BlockPointer → Option Nat
  decode : List Nat → Option (List Nat)
  unmaskBlockCryptKey : Nat → Nat → Nat
  decryptBlock : List Nat → Nat → Option (List Nat)

/-- assembleBlock.  Returns the trace of collaborator calls together with
either the assembled block or the first error.  On success the encoded size
is the buffer length converted to uint32 (`% 2^32`). -/
def assembleBlock (env : AssembleEnv) (blockPtr : BlockPointer)
    (buf : List Nat) (blockServerHalf : Nat) :
    List AssembleStep × Except AssembleError AssembledBlock :=
  if env.hash buf = blockPtr.id then
    match env.getTLFCryptKeyForBlockDecryption blockPtr with
    | none => ([AssembleStep.verifyID, AssembleStep.getTLFCryptKey],
               Except.error AssembleError.keyError)
    | some tlfCryptKey =>
      match env.decode buf with
      | none => ([AssembleStep.verifyID, AssembleStep.getTLFCryptKey,
                  AssembleStep.decode],
                 Except.error AssembleError.decodeError)
      | some encryptedBlock =>
        match env.decryptBlock encryptedBlock
            (env.unmaskBlockCryptKey blockServerHalf tlfCryptKey) with
        | none => ([AssembleStep.verifyID, AssembleStep.getTLFCryptKey,
                    AssembleStep.decode, AssembleStep.decryptBlock],
                   Except.error AssembleError.decryptError)
        | some contents =>
          ([AssembleStep.verifyID, AssembleStep.getTLFCryptKey,
            AssembleStep.decode, AssembleStep.decryptBlock],
           Except.ok ⟨contents, buf.length % 2 ^ 32⟩)
  else ([AssembleStep.verifyID], Except.error AssembleError.hashMismatch)

/-! The stall-injection wrappers from test_stallers.go.  A context carries
the correlation value looked up in the stall map and its cancellation state
at the two `select` checkpoints that the Put wrappers perform. -/

/-- stallableOp constants (stallableOp is a string type in the source). -/
def StallableBlockGet : String := "Get"

/-- StallableBlockReady. -/
def StallableBlockReady : String := "Ready"

/-- StallableBlockPut. -/
def StallableBlockPut : String := "Put"

/-- StallableBlockDelete. -/
def StallableBlockDelete : String := "Delete"

/-- StallableBlockArchive. -/
def StallableBlockArchive : String := "Archive"

/-- StallableMDGetForTLF. -/
def StallableMDGetForTLF : String := "GetForTLF"

/-- StallableMDPut. -/
def StallableMDPut : String := "Put"

/-- StallableMDAfterPut. -/
def StallableMDAfterPut : String := "AfterPut"

/-- StallableMDPutUnmerged. -/
def StallableMDPutUnmerged : String := "PutUnmerged"

/-- The context as the stall wrappers observe it: whether
`ctx.Value(stallKey)` hits the registered stall map, and whether the context
is already done at the check before, respectively after, the delegate call.
Only the Put wrappers inspect the cancellation state. -/
structure StallCtx where
  stallKeyRegistered : Bool
  canceledBeforeCall : Bool
  canceledAfterCall : Bool
deriving DecidableEq

/-- maybeStall: returns whether the operation blocked on the staller — the
operation name must match the configured stalled operation and the context's
correlation value must be registered in the stall map.  A stall only delays
the operation; it contributes no value. -/
def maybeStall (opName stallOpName : String) (ctx : StallCtx) : Bool :=
  if opName ≠ stallOpName then false
  else if ctx.stallKeyRegistered then true
  else false

/-- Outcome of one call through a stall wrapper: whether it stalled, whether
the delegate was actually invoked, and the value returned to the caller. -/
structure StallerOutcome (α : Type) where
  stalled : Bool
  delegateCalled : Bool
  result : α
deriving DecidableEq

/-- stallingBlockOps: the BlockOps wrapper, configured to stall one named
block operation. -/
structure stallingBlockOps where
  stallOpName : String

/-- stallingBlockOps.Get: maybeStall, then return the delegate's result. -/
def stallingBlockOps.Get {α : Type} (f : stallingBlockOps) (ctx : StallCtx)
    (delegateGet : α) : StallerOutcome α :=
  ⟨maybeStall StallableBlockGet f.stallOpName ctx, true, delegateGet⟩

/-- stallingBlockOps.Ready: maybeStall, then return the delegate's result. -/
def stallingBlockOps.Ready {α : Type} (f : stallingBlockOps) (ctx : StallCtx)
    (delegateReady : α) : StallerOutcome α :=
  ⟨maybeStall StallableBlockReady f.stallOpName ctx, true, delegateReady⟩

/-- stallingBlockOps.Delete: maybeStall, then return the delegate's result. -/
def stallingBlockOps.Delete {α : Type} (f : stallingBlockOps) (ctx : StallCtx)
    (delegateDelete : α) : StallerOutcome α :=
  ⟨maybeStall StallableBlockDelete f.stallOpName ctx, true, delegateDelete⟩

/-- stallingBlockOps.Archive: maybeStall, then return the delegate's result. -/
def stallingBlockOps.Archive {α : Type} (f : stallingBlockOps) (ctx : StallCtx)
    (delegateArchive : α) : StallerOutcome α :=
  ⟨maybeStall StallableBlockArchive f.stallOpName ctx, true, delegateArchive⟩

/-- stallingBlockOps.Put: maybeStall; if the context is already done, return
ctx.Err() without calling the delegate; otherwise call the delegate and — if
the context is done afterwards — return ctx.Err() in place of the delegate's
error. -/
def stallingBlockOps.Put (f : stallingBlockOps) (ctx : StallCtx)
    (delegatePut : Option BServerError) :
    StallerOutcome (Option BServerError) :=
  let stalled := maybeStall StallableBlockPut f.stallOpName ctx
  if ctx.canceledBeforeCall then
    ⟨stalled, false, some BServerError.canceled⟩
  else
    let err := delegatePut
    if ctx.canceledAfterCall then ⟨stalled, true, some BServerError.canceled⟩
    else ⟨stalled, true, err⟩

/-- stallingMDOps: the MDOps wrapper, configured to stall one named MD
operation. -/
structure stallingMDOps where
  stallOpName : String

/-- stallingMDOps.GetForTLF: maybeStall, then return the delegate's result. -/
def stallingMDOps.GetForTLF {α : Type} (m : stallingMDOps) (ctx : StallCtx)
    (delegateGet : α) : StallerOutcome α :=
  ⟨maybeStall StallableMDGetForTLF m.stallOpName ctx, true, delegateGet⟩

/-- stallingMDOps.Put: maybeStall(Put); if the context is already done,
return ctx.Err() without calling the delegate; otherwise call the delegate,
maybeStall(AfterPut), and — if the context is done — return ctx.Err() in
place of the delegate's error (emulating a Put canceled while the RPC is
outstanding). -/
def stallingMDOps.Put (m : stallingMDOps) (ctx : StallCtx)
    (delegatePut : Option BServerError) :
    StallerOutcome (Option BServerError) :=
  let stalled := maybeStall StallableMDPut m.stallOpName ctx
  if ctx.canceledBeforeCall then
    ⟨stalled, false, some BServerError.canceled⟩
  else
    let err := delegatePut
    let stalledAfter := maybeStall StallableMDAfterPut m.stallOpName ctx
    if ctx.canceledAfterCall then
      ⟨stalled || stalledAfter, true, some BServerError.canceled⟩
    else ⟨stalled || stalledAfter, true, err⟩

/-- stallingMDOps.PutUnmerged: like stallingMDOps.Put but with no AfterPut
stall point. -/
def stallingMDOps.PutUnmerged (m : stallingMDOps) (ctx : StallCtx)
    (delegatePutUnmerged : Option BServerError) :
    StallerOutcome (Option BServerError) :=
  let stalled := maybeStall StallableMDPutUnmerged m.stallOpName ctx
  if ctx.canceledBeforeCall then
    ⟨stalled, false, some BServerError.canceled⟩
  else
    let err := delegatePutUnmerged
    if ctx.canceledAfterCall then
      ⟨stalled, true, some BServerError.canceled⟩
    else ⟨stalled, true, err⟩

/-! Helper notions used by the theorems. -/

/-- The single remote call putBlockToServer issues for one batch entry. -/
def entryCall (tlfID : Nat) (bs : blockState) : BServCall :=
  if bs.blockPtr.refNonce = zeroRefNonce then
    BServCall.put tlfID bs.blockPtr.id bs.blockPtr.bctx bs.readyBlockData.buf
      bs.readyBlockData.serverHalf
  else BServCall.addBlockReference tlfID bs.blockPtr.id bs.blockPtr.bctx

/-- putBlockToServer issues exactly the entry's call and returns the server's
response to it. -/
theorem putBlockToServer_eq_entryCall (bserv : BServCall → Option BServerError)
    (tlfID : Nat) (bs : blockState) :
    putBlockToServer bserv tlfID bs.blockPtr bs.readyBlockData =
      ([entryCall tlfID bs], bserv (entryCall tlfID bs)) := by
  unfold putBlockToServer entryCall
  split <;> rfl

/-- Whether a remote call is a full store call. -/
def BServCall.isFullPut : BServCall → Bool
  | .put _ _ _ _ _ => true
  | .addBlockReference _ _ _ => false

/-- The payload buffer a remote call carries, if any. -/
def BServCall.payload : BServCall → Option (List Nat)
  | .put _ _ _ buf _ => some buf
  | .addBlockReference _ _ _ => none

/-- An entry whose remote call succeeds under the given cancellation state
of the shared context and whose completion callback (if present) succeeds. -/
def entrySucceeds (resp : Bool → BServCall → Option BServerError)
    (canceled : Bool) (tlfID : Nat) (bs : blockState) : Prop :=
  resp canceled (entryCall tlfID bs) = none
  ∧ (bs.syncedCb = none ∨ bs.syncedCb = some none)

instance (resp : Bool → BServCall → Option BServerError) (canceled : Bool)
    (tlfID : Nat) (bs : blockState) :
    Decidable (entrySucceeds resp canceled tlfID bs) := by
  unfold entrySucceeds; infer_instance

/-- PutBlockCheckQuota on an entry whose remote call succeeds. -/
theorem PutBlockCheckQuota_of_resp_none (bserv : BServCall → Option BServerError)
    (tlfID : Nat) (bs : blockState)
    (h : bserv (entryCall tlfID bs) = none) :
    PutBlockCheckQuota bserv tlfID bs.blockPtr bs.readyBlockData =
      ([entryCall tlfID bs], [], none) := by
  unfold PutBlockCheckQuota
  rw [putBlockToServer_eq_entryCall, h]

/-- PutBlockCheckQuota passes any non-over-quota error through unchanged. -/
theorem PutBlockCheckQuota_of_resp_err (bserv : BServCall → Option BServerError)
    (tlfID : Nat) (bs : blockState) (e : BServerError)
    (h : bserv (entryCall tlfID bs) = some e)
    (hnq : ∀ u l t, e ≠ BServerError.overQuota u l t) :
    PutBlockCheckQuota bserv tlfID bs.blockPtr bs.readyBlockData =
      ([entryCall tlfID bs], [], some e) := by
  unfold PutBlockCheckQuota
  rw [putBlockToServer_eq_entryCall, h]
  cases e <;> first
    | rfl
    | exact absurd rfl (hnq _ _ _)

/-- Claim C10: on the empty batch, doBlockPuts returns a nil pointer list and
a nil error, issues no remote call, reports nothing, invokes no callback,
sends nothing on blocksToRemoveChan and performs no cache mutation. -/
theorem doBlockPuts_empty_batch (resp : Bool → BServCall → Option BServerError)
    (tlfID : Nat) :
    doBlockPuts resp tlfID ⟨[]⟩ =
      ⟨[], none, [], [], [], [], [], []⟩ := rfl

/-- Claim C6: putBlockToServer issues the full store call `bserv.Put`,
carrying the payload buffer and the server key half, exactly when the
pointer's reference nonce is zero; for a non-zero nonce it instead issues
`bserv.AddBlockReference`, which carries no payload. -/
theorem putBlockToServer_refNonce_dispatch
    (bserv : BServCall → Option BServerError) (tlfID : Nat)
    (blockPtr : BlockPointer) (readyBlockData : ReadyBlockData) :
    (blockPtr.refNonce = zeroRefNonce →
      putBlockToServer bserv tlfID blockPtr readyBlockData =
        ([BServCall.put tlfID blockPtr.id blockPtr.bctx readyBlockData.buf
            readyBlockData.serverHalf],
         bserv (BServCall.put tlfID blockPtr.id blockPtr.bctx
            readyBlockData.buf readyBlockData.serverHalf)))
    ∧ (blockPtr.refNonce ≠ zeroRefNonce →
      putBlockToServer bserv tlfID blockPtr readyBlockData =
        ([BServCall.addBlockReference tlfID blockPtr.id blockPtr.bctx],
         bserv (BServCall.addBlockReference tlfID blockPtr.id blockPtr.bctx))
      ∧ ∀ c ∈ (putBlockToServer bserv tlfID blockPtr readyBlockData).1,
          c.isFullPut = false ∧ c.payload = none) := by
  constructor
  · intro h
    unfold putBlockToServer
    rw [if_pos h]
  · intro h
    have he : putBlockToServer bserv tlfID blockPtr readyBlockData =
        ([BServCall.addBlockReference tlfID blockPtr.id blockPtr.bctx],
         bserv (BServCall.addBlockReference tlfID blockPtr.id blockPtr.bctx)) := by
      unfold putBlockToServer
      rw [if_neg h]
    refine ⟨he, ?_⟩
    rw [he]
    intro c hc
    rw [List.mem_singleton] at hc
    subst hc
    exact ⟨rfl, rfl⟩

/-- Witness for putBlockToServer_refNonce_dispatch: both branches at concrete
pointers. -/
theorem putBlockToServer_refNonce_dispatch_witness :
    putBlockToServer (fun _ => none) 0 ⟨1, 2, 0⟩ ⟨[9], 4⟩ =
      ([BServCall.put 0 1 2 [9] 4], none)
    ∧ putBlockToServer (fun _ => none) 0 ⟨1, 2, 7⟩ ⟨[9], 4⟩ =
      ([BServCall.addBlockReference 0 1 2], none) :=
  ⟨((putBlockToServer_refNonce_dispatch (fun _ => none) 0 ⟨1, 2, 0⟩ ⟨[9], 4⟩).1
      rfl).trans rfl,
   (((putBlockToServer_refNonce_dispatch (fun _ => none) 0 ⟨1, 2, 7⟩ ⟨[9], 4⟩).2
      (by decide)).1).trans rfl⟩

/-- Claim C4: a soft (non-throttled) over-quota response is downgraded by
PutBlockCheckQuota to a reported OverQuotaWarning carrying the server's usage
and limit, with a nil error; a hard (throttled) over-quota response is
returned unchanged with nothing reported. -/
theorem PutBlockCheckQuota_quota_handling
    (bserv : BServCall → Option BServerError) (tlfID : Nat)
    (blockPtr : BlockPointer) (readyBlockData : ReadyBlockData)
    (usage limit : Int) :
    ((putBlockToServer bserv tlfID blockPtr readyBlockData).2 =
        some (BServerError.overQuota usage limit false) →
      PutBlockCheckQuota bserv tlfID blockPtr readyBlockData =
        ((putBlockToServer bserv tlfID blockPtr readyBlockData).1,
         [⟨usage, limit⟩], none))
    ∧ ((putBlockToServer bserv tlfID blockPtr readyBlockData).2 =
        some (BServerError.overQuota usage limit true) →
      PutBlockCheckQuota bserv tlfID blockPtr readyBlockData =
        ((putBlockToServer bserv tlfID blockPtr readyBlockData).1, [],
         some (BServerError.overQuota usage limit true))) := by
  rcases hpq : putBlockToServer bserv tlfID blockPtr readyBlockData with ⟨calls, err⟩
  constructor <;> intro h <;> simp only at h <;> subst h <;>
    simp [PutBlockCheckQuota, hpq]

/-- Witness for PutBlockCheckQuota_quota_handling: a soft and a hard
over-quota response at a concrete entry. -/
theorem PutBlockCheckQuota_quota_handling_witness :
    PutBlockCheckQuota (fun _ => some (BServerError.overQuota 7 5 false)) 0
        ⟨1, 0, 0⟩ ⟨[2], 3⟩ =
      ([BServCall.put 0 1 0 [2] 3], [⟨7, 5⟩], none)
    ∧ PutBlockCheckQuota (fun _ => some (BServerError.overQuota 7 5 true)) 0
        ⟨1, 0, 0⟩ ⟨[2], 3⟩ =
      ([BServCall.put 0 1 0 [2] 3], [],
       some (BServerError.overQuota 7 5 true)) :=
  ⟨((PutBlockCheckQuota_quota_handling
      (fun _ => some (BServerError.overQuota 7 5 false)) 0 ⟨1, 0, 0⟩ ⟨[2], 3⟩
      7 5).1 rfl).trans rfl,
   ((PutBlockCheckQuota_quota_handling
      (fun _ => some (BServerError.overQuota 7 5 true)) 0 ⟨1, 0, 0⟩ ⟨[2], 3⟩
      7 5).2 rfl).trans rfl⟩

/-- wrap64 is the identity on values already in the 64-bit range. -/
theorem wrap64_eq_self {x : Int} (h1 : -(2 ^ 63) ≤ x) (h2 : x < 2 ^ 63) :
    wrap64 x = x := by
  unfold wrap64
  have h3 : 0 ≤ x + 2 ^ 63 := by omega
  have h4 : x + 2 ^ 63 < 2 ^ 64 := by omega
  rw [Int.emod_eq_of_lt h3 h4]
  omega

/-- Truncated and Euclidean division agree on nonnegative operands. -/
theorem tdiv_eq_div_of_nonneg {a b : Int} (ha : 0 ≤ a) (hb : 0 ≤ b) :
    a.tdiv b = a / b := by
  obtain ⟨m, rfl⟩ := Int.eq_ofNat_of_zero_le ha
  obtain ⟨n, rfl⟩ := Int.eq_ofNat_of_zero_le hb
  rfl

/-- Counterexample to claim C7 as stated: the delay is computed in Go 64-bit
int arithmetic, so for the representable payload size 2^54 at rate 1 KBps the
product `size * int(time.Second)` overflows and the computed delay differs
from the exact integer value `size * 1e9 / (rate * 1024)`. -/
theorem BlockOpsConstrained_delay_overflow_cex :
    (BlockOpsConstrained.delay ⟨1⟩ false (2 ^ 54)).1 ≠
      2 ^ 54 * timeSecond / (1 * 1024) := by decide

/-- Claim C7 (amended): a non-positive configured rate yields a zero delay
and no error (the put is forwarded immediately); for a positive rate the
computed delay equals `size * int(time.Second) / (rate * 1024)` in exact
integer arithmetic whenever the two products fit in a signed 64-bit int, the
payload size being nonnegative. -/
theorem BlockOpsConstrained_delay_spec (b : BlockOpsConstrained)
    (canceled : Bool) (size : Int) :
    (b.bwKBps ≤ 0 → b.delay canceled size = (0, none))
    ∧ (0 < b.bwKBps → 0 ≤ size → size * timeSecond < 2 ^ 63 →
        b.bwKBps * 1024 < 2 ^ 63 →
        (b.delay canceled size).1 = size * timeSecond / (b.bwKBps * 1024)) := by
  constructor
  · intro h
    unfold BlockOpsConstrained.delay
    rw [if_pos h]
  · intro hb hs hst hbw
    unfold BlockOpsConstrained.delay
    rw [if_neg (by omega)]
    show goQuot (goMul size timeSecond) (goMul b.bwKBps 1024) = _
    have hts : (0 : Int) < timeSecond := by decide
    have hpow : (0 : Int) ≤ 2 ^ 63 := by positivity
    have ha : (0 : Int) ≤ size * timeSecond := mul_nonneg hs hts.le
    have hbb : (0 : Int) < b.bwKBps * 1024 := by positivity
    have h1 : goMul size timeSecond = size * timeSecond :=
      wrap64_eq_self (by linarith) hst
    have h2 : goMul b.bwKBps 1024 = b.bwKBps * 1024 :=
      wrap64_eq_self (by linarith) hbw
    unfold goQuot
    rw [h1, h2, if_neg (ne_of_gt hbb),
      tdiv_eq_div_of_nonneg ha hbb.le]
    have hdivnn : (0 : Int) ≤ size * timeSecond / (b.bwKBps * 1024) :=
      Int.ediv_nonneg ha hbb.le
    have hdivle : size * timeSecond / (b.bwKBps * 1024) ≤ size * timeSecond :=
      Int.ediv_le_self _ ha
    exact wrap64_eq_self (by linarith) (by linarith)

/-- Witness for BlockOpsConstrained_delay_spec: rate 0 gives no delay; rate
2 KBps with a 1000-byte payload delays 1000 * 1e9 / 2048 nanoseconds. -/
theorem BlockOpsConstrained_delay_spec_witness :
    BlockOpsConstrained.delay ⟨0⟩ false 5 = (0, none)
    ∧ (BlockOpsConstrained.delay ⟨2⟩ false 1000).1 =
        1000 * timeSecond / (2 * 1024) :=
  ⟨(BlockOpsConstrained_delay_spec ⟨0⟩ false 5).1 (by decide),
   (BlockOpsConstrained_delay_spec ⟨2⟩ false 1000).2 (by decide) (by decide)
     (by decide) (by decide)⟩

/-- An assembleBlock environment in which every collaborator succeeds. -/
def assembleEnvOk : AssembleEnv where
  hash := fun _ => 0
  getTLFCryptKeyForBlockDecryption := fun _ => some 0
  decode := fun _ => some []
  unmaskBlockCryptKey := fun _ _ => 0
  decryptBlock := fun _ _ => some []

/-- An assembleBlock environment whose content hash never matches ID 0. -/
def assembleEnvBad : AssembleEnv :=
  { assembleEnvOk with hash := fun _ => 1 }

/-- In the all-succeeding environment, assembly succeeds on every buffer
whose pointer carries block ID 0 and records the uint32-truncated length. -/
theorem assembleBlock_envOk_snd (blockPtr : BlockPointer)
    (h : blockPtr.id = 0) (buf : List Nat) (sh : Nat) :
    (assembleBlock assembleEnvOk blockPtr buf sh).2 =
      Except.ok ⟨[], buf.length % 2 ^ 32⟩ := by
  obtain ⟨i, c, n⟩ := blockPtr
  have h2 : i = 0 := h
  subst h2
  rfl

/-- Counterexample to claim C8 as stated: SetEncodedSize converts the buffer
length to uint32, so a successful assembly of a buffer of length 2^32 records
encoded size 0, not the buffer's length. -/
theorem assembleBlock_encodedSize_cex :
    (assembleBlock assembleEnvOk ⟨0, 0, 0⟩ (List.replicate (2 ^ 32) 0) 0).2 =
      Except.ok ⟨[], 0⟩
    ∧ (List.replicate (2 ^ 32) (0 : Nat)).length ≠ 0 := by
  constructor
  · rw [assembleBlock_envOk_snd ⟨0, 0, 0⟩ rfl, List.length_replicate,
      Nat.mod_self]
  · rw [List.length_replicate]
    norm_num

/-- Claim C8 (amended): on a content-hash mismatch assembleBlock fails with
the integrity-violation error having consulted no collaborator but VerifyID
(no key fetch, no decode, no decryption); on success the block's encoded size
is the buffer length converted to uint32, i.e. `buf.length % 2^32`, which is
the buffer's length whenever it is below 2^32. -/
theorem assembleBlock_spec (env : AssembleEnv) (blockPtr : BlockPointer)
    (buf : List Nat) (blockServerHalf : Nat) :
    (env.hash buf ≠ blockPtr.id →
      assembleBlock env blockPtr buf blockServerHalf =
        ([AssembleStep.verifyID], Except.error AssembleError.hashMismatch))
    ∧ (∀ blk, (assembleBlock env blockPtr buf blockServerHalf).2 =
        Except.ok blk → blk.encodedSize = buf.length % 2 ^ 32) := by
  constructor
  · intro h
    unfold assembleBlock
    rw [if_neg h]
  · intro blk hok
    unfold assembleBlock at hok
    split at hok
    · split at hok
      · simp at hok
      · split at hok
        · simp at hok
        · split at hok
          · simp at hok
          · simp only [Except.ok.injEq] at hok
            rw [← hok]
    · simp at hok

/-- Witness for assembleBlock_spec: a concrete mismatching buffer fails with
the integrity error, and a concrete successful assembly of a 3-byte buffer
records encoded size 3. -/
theorem assembleBlock_spec_witness :
    assembleBlock assembleEnvBad ⟨0, 0, 0⟩ [5] 0 =
      ([AssembleStep.verifyID], Except.error AssembleError.hashMismatch)
    ∧ (⟨[], 3⟩ : AssembledBlock).encodedSize = ([1, 2, 3] : List Nat).length % 2 ^ 32 :=
  ⟨(assembleBlock_spec assembleEnvBad ⟨0, 0, 0⟩ [5] 0).1 (by decide),
   (assembleBlock_spec assembleEnvOk ⟨0, 0, 0⟩ [1, 2, 3] 0).2 ⟨[], 3⟩ rfl⟩

/-- Counterexample to claim C3 as stated: a stallingBlockOps.Put whose
context becomes done while the delegate call is outstanding returns the
cancellation error even though the delegate returned nil — the wrapper
alters the delegate's return value. -/
theorem stallingPut_alters_result_cex :
    (stallingBlockOps.Put ⟨StallableBlockGet⟩ ⟨false, false, true⟩
        none).result = some BServerError.canceled
    ∧ some BServerError.canceled ≠ (none : Option BServerError) := by decide

/-- Claim C3 (amended): every stall wrapper except the Put wrappers returns
exactly the delegate's value; the Put wrappers (stallingBlockOps.Put,
stallingMDOps.Put, stallingMDOps.PutUnmerged) return the delegate's value
only when the context is not done at their cancellation checks, return the
cancellation error whenever the context is done at either check, and skip the
delegate call entirely when the context is already done beforehand. -/
theorem stallers_return_delegate_spec {α β γ δ ε : Type}
    (f : stallingBlockOps) (m : stallingMDOps) (ctx : StallCtx)
    (g : α) (r : β) (d : γ) (a : δ) (gt : ε)
    (bp mp mpu : Option BServerError) :
    (f.Get ctx g).result = g
    ∧ (f.Ready ctx r).result = r
    ∧ (f.Delete ctx d).result = d
    ∧ (f.Archive ctx a).result = a
    ∧ (m.GetForTLF ctx gt).result = gt
    ∧ (ctx.canceledBeforeCall = false → ctx.canceledAfterCall = false →
        (f.Put ctx bp).result = bp
        ∧ (m.Put ctx mp).result = mp
        ∧ (m.PutUnmerged ctx mpu).result = mpu)
    ∧ ((ctx.canceledBeforeCall || ctx.canceledAfterCall) = true →
        (f.Put ctx bp).result = some BServerError.canceled
        ∧ (m.Put ctx mp).result = some BServerError.canceled
        ∧ (m.PutUnmerged ctx mpu).result = some BServerError.canceled)
    ∧ (ctx.canceledBeforeCall = true →
        (f.Put ctx bp).delegateCalled = false
        ∧ (m.Put ctx mp).delegateCalled = false
        ∧ (m.PutUnmerged ctx mpu).delegateCalled = false) := by
  obtain ⟨k, c1, c2⟩ := ctx
  refine ⟨rfl, rfl, rfl, rfl, rfl, ?_, ?_, ?_⟩ <;>
    cases c1 <;> cases c2 <;>
      simp [stallingBlockOps.Put, stallingMDOps.Put,
        stallingMDOps.PutUnmerged]

/-- Witness for stallers_return_delegate_spec: with an un-canceled context
the block Put wrapper passes the delegate's error through; with a context
already done beforehand it returns the cancellation error and skips the
delegate. -/
theorem stallers_return_delegate_spec_witness :
    (stallingBlockOps.Put ⟨StallableBlockPut⟩ ⟨true, false, false⟩
        (some (BServerError.other 3))).result = some (BServerError.other 3)
    ∧ (stallingBlockOps.Put ⟨StallableBlockPut⟩ ⟨true, true, false⟩
        none).result = some BServerError.canceled
    ∧ (stallingBlockOps.Put ⟨StallableBlockPut⟩ ⟨true, true, false⟩
        none).delegateCalled = false :=
  ⟨((stallers_return_delegate_spec ⟨StallableBlockPut⟩ ⟨StallableMDPut⟩
      ⟨true, false, false⟩ 0 0 0 0 0 (some (BServerError.other 3)) none
      none).2.2.2.2.2.1 rfl rfl).1,
   ((stallers_return_delegate_spec ⟨StallableBlockPut⟩ ⟨StallableMDPut⟩
      ⟨true, true, false⟩ 0 0 0 0 0 none none
      none).2.2.2.2.2.2.1 rfl).1,
   ((stallers_return_delegate_spec ⟨StallableBlockPut⟩ ⟨StallableMDPut⟩
      ⟨true, true, false⟩ 0 0 0 0 0 none none
      none).2.2.2.2.2.2.2 rfl).1⟩

/-! Lemmas about the worker pool. -/

/-- runWorkers on an exhausted queue. -/
theorem runWorkers_nil (resp : Bool → BServCall → Option BServerError)
    (tlfID : Nat) (alive : Nat) (canceled : Bool) (fe : Option BServerError) :
    runWorkers resp tlfID [] alive canceled fe = ⟨[], [], [], [], [], fe⟩ :=
  rfl

/-- runWorkers pulling one entry. -/
theorem runWorkers_cons (resp : Bool → BServCall → Option BServerError)
    (tlfID : Nat) (bs : blockState) (rest : List blockState) (alive : Nat)
    (canceled : Bool) (fe : Option BServerError) :
    runWorkers resp tlfID (bs :: rest) alive canceled fe =
      if alive = 0 then ⟨[], [], [], [], [], fe⟩
      else
        let r := doOneBlockPut (resp canceled) tlfID bs
        let tail :=
          match r.err with
          | none => runWorkers resp tlfID rest alive canceled fe
          | some e =>
              runWorkers resp tlfID rest (alive - 1) true
                (match fe with
                 | none => some e
                 | some e0 => some e0)
        ⟨(bs, r.err) :: tail.processed,
         r.calls ++ tail.calls,
         r.warnings ++ tail.warnings,
         (if r.cbInvoked then [bs] else []) ++ tail.cbInvoked,
         r.chanSends ++ tail.chanSends,
         tail.firstErr⟩ := by
  rw [runWorkers]

/-- doOneBlockPut on a succeeding entry: one remote call, no warning, the
callback (if any) invoked, nothing sent on blocksToRemoveChan, nil error. -/
theorem doOneBlockPut_success (resp : Bool → BServCall → Option BServerError)
    (tlfID : Nat) (bs : blockState) (c : Bool)
    (h : entrySucceeds resp c tlfID bs) :
    doOneBlockPut (resp c) tlfID bs =
      ⟨[entryCall tlfID bs], [], bs.syncedCb.isSome, [], none⟩ := by
  obtain ⟨hcall, h3⟩ := h
  unfold doOneBlockPut
  rw [PutBlockCheckQuota_of_resp_none _ _ _ hcall]
  rcases h3 with h3 | h3 <;> rw [h3] <;> rfl

/-- doOneBlockPut on an entry whose remote call fails with a recoverable
error and whose block is a non-indirect FileBlock: the callback is skipped
and the block is sent on blocksToRemoveChan. -/
theorem doOneBlockPut_recoverable (bserv : BServCall → Option BServerError)
    (tlfID : Nat) (bs : blockState) (e : BServerError) (uid : Nat)
    (hcall : bserv (entryCall tlfID bs) = some e)
    (hrec : isRecoverableBlockError e = true)
    (hfile : bs.block = Block.file false uid) :
    doOneBlockPut bserv tlfID bs =
      ⟨[entryCall tlfID bs], [], false, [bs.block], some e⟩ := by
  have hnq : ∀ u l t, e ≠ BServerError.overQuota u l t := by
    intro u l t he
    subst he
    simp [isRecoverableBlockError] at hrec
  unfold doOneBlockPut
  rw [PutBlockCheckQuota_of_resp_err _ _ _ _ hcall hnq, hfile]
  simp [hrec]

/-- Effect of a run over entries that all succeed, prepended to a
continuation run. -/
def successRun (tlfID : Nat) (l : List blockState) (r : RunResult) :
    RunResult :=
  ⟨l.map (fun bs => (bs, none)) ++ r.processed,
   l.map (entryCall tlfID) ++ r.calls,
   r.warnings,
   (l.filter fun bs => bs.syncedCb.isSome) ++ r.cbInvoked,
   r.chanSends,
   r.firstErr⟩

/-- A run whose leading entries all succeed decomposes: the leading entries
are processed in order with nil errors, every worker stays alive, the
cancellation flag and first error are untouched, and the run continues on
the remaining queue. -/
theorem runWorkers_success_front (resp : Bool → BServCall → Option BServerError)
    (tlfID : Nat) (l tail : List blockState) (alive : Nat) (canceled : Bool)
    (fe : Option BServerError)
    (h : ∀ bs ∈ l, entrySucceeds resp canceled tlfID bs)
    (halive : alive ≠ 0) :
    runWorkers resp tlfID (l ++ tail) alive canceled fe =
      successRun tlfID l (runWorkers resp tlfID tail alive canceled fe) := by
  induction l with
  | nil => rfl
  | cons bs l ih =>
    have hbs := h bs (List.mem_cons_self _ _)
    have hl : ∀ x ∈ l, entrySucceeds resp canceled tlfID x :=
      fun x hx => h x (List.mem_cons_of_mem _ hx)
    rw [List.cons_append, runWorkers_cons, if_neg halive,
      doOneBlockPut_success resp tlfID bs canceled hbs]
    simp only [successRun, ih hl, List.map_cons, List.filter_cons,
      List.cons_append]
    by_cases hcb : bs.syncedCb.isSome <;> simp [hcb]

/-- A run consisting only of succeeding entries. -/
theorem runWorkers_all_success (resp : Bool → BServCall → Option BServerError)
    (tlfID : Nat) (l : List blockState) (alive : Nat) (canceled : Bool)
    (fe : Option BServerError)
    (h : ∀ bs ∈ l, entrySucceeds resp canceled tlfID bs)
    (halive : l = [] ∨ alive ≠ 0) :
    runWorkers resp tlfID l alive canceled fe =
      successRun tlfID l ⟨[], [], [], [], [], fe⟩ := by
  rcases halive with rfl | halive
  · rfl
  · have hfront := runWorkers_success_front resp tlfID l [] alive canceled fe
      h halive
    rw [List.append_nil] at hfront
    rw [hfront, runWorkers_nil]

/-- A nonempty batch gets at least one worker. -/
theorem numWorkersFor_ne_zero (bps : blockPutState)
    (h : bps.blockStates ≠ []) : numWorkersFor bps ≠ 0 := by
  unfold numWorkersFor maxParallelBlockPuts
  split
  · decide
  · intro hq
    exact h (List.length_eq_zero.mp hq)

/-- A batch of two or more entries gets at least two workers. -/
theorem numWorkersFor_ge_two (bps : blockPutState)
    (h : 2 ≤ bps.blockStates.length) : 2 ≤ numWorkersFor bps := by
  unfold numWorkersFor maxParallelBlockPuts
  split
  · omega
  · exact h

/-- Claim C5: on a batch in which every entry's remote call and completion
callback succeed, doBlockPuts returns a nil pointer list and a nil error,
processes each entry exactly once (in queue order, each with a nil error),
issues exactly each entry's remote call, invokes exactly the non-nil
completion callbacks once each, reports no warning, sends nothing on
blocksToRemoveChan, and performs no cache mutation. -/
theorem doBlockPuts_all_success (resp : Bool → BServCall → Option BServerError)
    (tlfID : Nat) (bps : blockPutState)
    (h : ∀ bs ∈ bps.blockStates, entrySucceeds resp false tlfID bs) :
    doBlockPuts resp tlfID bps =
      ⟨[], none,
       bps.blockStates.map (fun bs => (bs, none)),
       bps.blockStates.map (entryCall tlfID),
       [],
       bps.blockStates.filter (fun bs => bs.syncedCb.isSome),
       [], []⟩ := by
  by_cases hempty : bps.blockStates = []
  · unfold doBlockPuts numWorkersFor
    rw [hempty]
    rfl
  · have halive := numWorkersFor_ne_zero bps hempty
    have hrun := runWorkers_all_success resp tlfID bps.blockStates
      (numWorkersFor bps) false none h (Or.inr halive)
    unfold doBlockPuts
    rw [hrun]
    simp [successRun, isRecoverableOpt]

/-- A concrete all-succeeding entry with refnonce zero and no callback. -/
def entA : blockState := ⟨⟨1, 0, 0⟩, Block.file false 1, ⟨[4], 0⟩, none⟩

/-- A concrete all-succeeding entry with a non-zero refnonce and a succeeding
callback. -/
def entB : blockState := ⟨⟨2, 0, 5⟩, Block.dir 2, ⟨[], 0⟩, some none⟩

/-- Witness for doBlockPuts_all_success at a concrete two-entry batch. -/
theorem doBlockPuts_all_success_witness :
    (doBlockPuts (fun _ _ => none) 0 ⟨[entA, entB]⟩).blocksToRemove = []
    ∧ (doBlockPuts (fun _ _ => none) 0 ⟨[entA, entB]⟩).err = none
    ∧ (doBlockPuts (fun _ _ => none) 0 ⟨[entA, entB]⟩).cbInvoked = [entB] := by
  have h := doBlockPuts_all_success (fun _ _ => none) 0 ⟨[entA, entB]⟩
    (by decide)
  refine ⟨by rw [h], by rw [h], by rw [h]; decide⟩

/-- Effect of one recoverably-failing non-indirect FileBlock entry at the
head of the queue, prepended to the continuation run. -/
def failStep (tlfID : Nat) (bad : blockState) (e : BServerError)
    (r : RunResult) : RunResult :=
  ⟨(bad, some e) :: r.processed,
   entryCall tlfID bad :: r.calls,
   r.warnings,
   r.cbInvoked,
   bad.block :: r.chanSends,
   r.firstErr⟩

/-- A worker that pulls a recoverably-failing non-indirect FileBlock entry
sends the block on blocksToRemoveChan, returns the error (recording it as
the group's first error), and exits; the run continues on the rest of the
queue with one worker fewer and the shared context cancelled. -/
theorem runWorkers_recoverable_step
    (resp : Bool → BServCall → Option BServerError) (tlfID : Nat)
    (bad : blockState) (post : List blockState) (alive : Nat)
    (e : BServerError) (uid : Nat) (halive : alive ≠ 0)
    (hbad : resp false (entryCall tlfID bad) = some e)
    (hrec : isRecoverableBlockError e = true)
    (hfile : bad.block = Block.file false uid) :
    runWorkers resp tlfID (bad :: post) alive false none =
      failStep tlfID bad e
        (runWorkers resp tlfID post (alive - 1) true (some e)) := by
  rw [runWorkers_cons, if_neg halive,
    doOneBlockPut_recoverable (resp false) tlfID bad e uid hbad hrec hfile]
  rfl

/-- drainBlocksToRemove on an exhausted channel. -/
theorem drainBlocksToRemove_nil (blockStates : List blockState) (tlfID : Nat)
    (acc : List BlockPointer) :
    drainBlocksToRemove blockStates tlfID [] acc = (acc, []) := rfl

/-- drainBlocksToRemove on a channel holding one block that resolves to
exactly one batch entry. -/
theorem drainBlocksToRemove_single (blockStates : List blockState)
    (tlfID : Nat) (b : Block) (ptr : BlockPointer)
    (hmatch : (blockStates.filter fun bs => decide (bs.block = b)).map
        (fun bs => bs.blockPtr) = [ptr]) :
    drainBlocksToRemove blockStates tlfID [b] [] =
      ([ptr], [CacheOp.deleteKnownPtr tlfID b,
               CacheOp.deleteTransient ptr tlfID]) := by
  rw [drainBlocksToRemove]
  simp [hmatch, drainBlocksToRemove_nil]

/-- Counterexample to claim C1 as stated: a batch whose single entry fails
with the recoverable block-deleted error but whose block is a DirBlock, not
a non-indirect FileBlock; doBlockPuts returns the recoverable error with an
empty pointer list and performs no cache deletion at all. -/
theorem doBlockPuts_dirBlock_cex :
    (doBlockPuts (fun _ _ => some BServerError.blockDeleted) 0
        ⟨[⟨⟨1, 0, 0⟩, Block.dir 1, ⟨[], 0⟩, none⟩]⟩).err =
      some BServerError.blockDeleted
    ∧ (doBlockPuts (fun _ _ => some BServerError.blockDeleted) 0
        ⟨[⟨⟨1, 0, 0⟩, Block.dir 1, ⟨[], 0⟩, none⟩]⟩).blocksToRemove = []
    ∧ (doBlockPuts (fun _ _ => some BServerError.blockDeleted) 0
        ⟨[⟨⟨1, 0, 0⟩, Block.dir 1, ⟨[], 0⟩, none⟩]⟩).cacheOps = [] := by
  decide

/-- Claim C1 (amended): on a batch whose entries all succeed except one,
whose remote call fails with a recoverable error, and whose block is a
non-indirect FileBlock not shared with any other entry, doBlockPuts returns
exactly that entry's pointer together with the recoverable error, and the
Block Cache receives exactly one DeleteKnownPtr (for the entry's block) and
one DeleteTransient (for the entry's pointer). -/
theorem doBlockPuts_single_recoverable
    (resp : Bool → BServCall → Option BServerError) (tlfID : Nat)
    (pre post : List blockState) (bad : blockState) (e : BServerError)
    (uid : Nat)
    (hpre : ∀ bs ∈ pre, entrySucceeds resp false tlfID bs)
    (hpost : ∀ bs ∈ post, entrySucceeds resp true tlfID bs)
    (hbad : resp false (entryCall tlfID bad) = some e)
    (hrec : isRecoverableBlockError e = true)
    (hfile : bad.block = Block.file false uid)
    (huniq : ∀ bs ∈ pre ++ post, bs.block ≠ bad.block) :
    (doBlockPuts resp tlfID ⟨pre ++ bad :: post⟩).blocksToRemove =
      [bad.blockPtr]
    ∧ (doBlockPuts resp tlfID ⟨pre ++ bad :: post⟩).err = some e
    ∧ (doBlockPuts resp tlfID ⟨pre ++ bad :: post⟩).cacheOps =
        [CacheOp.deleteKnownPtr tlfID bad.block,
         CacheOp.deleteTransient bad.blockPtr tlfID] := by
  have hfilter : ((pre ++ bad :: post).filter
      fun bs => decide (bs.block = bad.block)) = [bad] := by
    have h1 : (pre.filter fun bs => decide (bs.block = bad.block)) = [] :=
      List.filter_eq_nil_iff.mpr fun a ha => by
        simpa using huniq a (List.mem_append_left _ ha)
    have h2 : (post.filter fun bs => decide (bs.block = bad.block)) = [] :=
      List.filter_eq_nil_iff.mpr fun a ha => by
        simpa using huniq a (List.mem_append_right _ ha)
    rw [List.filter_append, List.filter_cons]
    simp [h1, h2]
  have hmatch : ((pre ++ bad :: post).filter
        fun bs => decide (bs.block = bad.block)).map
      (fun bs => bs.blockPtr) = [bad.blockPtr] := by
    rw [hfilter]
    rfl
  have halive := numWorkersFor_ne_zero (⟨pre ++ bad :: post⟩ : blockPutState)
    (by simp)
  have hpostlive : post = [] ∨
      numWorkersFor (⟨pre ++ bad :: post⟩ : blockPutState) - 1 ≠ 0 := by
    rcases post with _ | ⟨p, ps⟩
    · exact Or.inl rfl
    · right
      have h2 : 2 ≤ (⟨pre ++ bad :: p :: ps⟩ : blockPutState).blockStates.length := by
        simp
        omega
      have := numWorkersFor_ge_two _ h2
      omega
  have hrun := runWorkers_success_front resp tlfID pre (bad :: post)
    (numWorkersFor (⟨pre ++ bad :: post⟩ : blockPutState)) false none hpre halive
  rw [runWorkers_recoverable_step resp tlfID bad post _ e uid halive hbad hrec
      hfile,
    runWorkers_all_success resp tlfID post _ true (some e) hpost hpostlive]
    at hrun
  have hdrain := drainBlocksToRemove_single (pre ++ bad :: post) tlfID
    bad.block bad.blockPtr hmatch
  refine ⟨?_, ?_, ?_⟩ <;>
    simp only [doBlockPuts] <;>
    rw [hrun] <;>
    simp [successRun, failStep, isRecoverableOpt, hrec, hdrain]

/-- Witness for doBlockPuts_single_recoverable at a concrete three-entry
batch whose middle entry fails with block-archived. -/
theorem doBlockPuts_single_recoverable_witness :
    (doBlockPuts
        (fun _ c => if c = BServCall.put 0 2 0 [] 0
          then some BServerError.blockArchived else none) 0
        ⟨[⟨⟨1, 0, 0⟩, Block.file false 1, ⟨[], 0⟩, none⟩,
          ⟨⟨2, 0, 0⟩, Block.file false 2, ⟨[], 0⟩, none⟩,
          ⟨⟨3, 0, 0⟩, Block.file false 3, ⟨[], 0⟩, none⟩]⟩).blocksToRemove =
      [⟨2, 0, 0⟩]
    ∧ (doBlockPuts
        (fun _ c => if c = BServCall.put 0 2 0 [] 0
          then some BServerError.blockArchived else none) 0
        ⟨[⟨⟨1, 0, 0⟩, Block.file false 1, ⟨[], 0⟩, none⟩,
          ⟨⟨2, 0, 0⟩, Block.file false 2, ⟨[], 0⟩, none⟩,
          ⟨⟨3, 0, 0⟩, Block.file false 3, ⟨[], 0⟩, none⟩]⟩).cacheOps =
      [CacheOp.deleteKnownPtr 0 (Block.file false 2),
       CacheOp.deleteTransient ⟨2, 0, 0⟩ 0] := by
  have h := doBlockPuts_single_recoverable
    (fun _ c => if c = BServCall.put 0 2 0 [] 0
      then some BServerError.blockArchived else none) 0
    [⟨⟨1, 0, 0⟩, Block.file false 1, ⟨[], 0⟩, none⟩]
    [⟨⟨3, 0, 0⟩, Block.file false 3, ⟨[], 0⟩, none⟩]
    ⟨⟨2, 0, 0⟩, Block.file false 2, ⟨[], 0⟩, none⟩
    BServerError.blockArchived 2
    (by decide) (by decide) (by decide) (by decide) (by decide) (by decide)
  exact ⟨h.1, h.2.2⟩

/-- First entry of the C2 batch: fails with the recoverable block-deleted
error. -/
def c2bad : blockState := ⟨⟨1, 0, 0⟩, Block.file false 1, ⟨[], 0⟩, none⟩

/-- Second entry of the C2 batch: its own call succeeds when the shared
context is alive. -/
def c2other : blockState := ⟨⟨2, 0, 0⟩, Block.file false 2, ⟨[], 0⟩, none⟩

/-- A server that fails the first entry's call with the recoverable
block-deleted error and answers any call made after the group context has
been cancelled with the cancellation error. -/
def c2resp : Bool → BServCall → Option BServerError := fun canceled c =>
  if canceled then some BServerError.canceled
  else if c = BServCall.put 0 1 0 [] 0 then some BServerError.blockDeleted
  else none

/-- Counterexample to claim C2 as stated: the recoverable failure of the
first entry cancels the shared group context, so the second entry — whose
own remote call succeeds whenever the context is alive — is aborted with the
cancellation error instead of being processed to completion. -/
theorem doBlockPuts_recoverable_cancels_cex :
    (doBlockPuts c2resp 0 ⟨[c2bad, c2other]⟩).processed =
      [(c2bad, some BServerError.blockDeleted),
       (c2other, some BServerError.canceled)]
    ∧ (doBlockPuts c2resp 0 ⟨[c2bad, c2other]⟩).chanSends = [c2bad.block]
    ∧ c2resp false (entryCall 0 c2other) = none := by
  decide

/-- Claim C2 (amended): a worker's recoverable error does not abort the pull
loop of the other workers, and the offending non-indirect FileBlock entry is
pushed onto the result channel; but the erroring worker exits and the shared
group context is cancelled, so the remaining entries are processed by one
fewer worker under a cancelled context (and may therefore be aborted with a
cancellation error) rather than being guaranteed to complete. -/
theorem doBlockPuts_recoverable_cancels
    (resp : Bool → BServCall → Option BServerError) (tlfID : Nat)
    (pre post : List blockState) (bad : blockState) (e : BServerError)
    (uid : Nat)
    (hpre : ∀ bs ∈ pre, entrySucceeds resp false tlfID bs)
    (hbad : resp false (entryCall tlfID bad) = some e)
    (hrec : isRecoverableBlockError e = true)
    (hfile : bad.block = Block.file false uid) :
    (doBlockPuts resp tlfID ⟨pre ++ bad :: post⟩).processed =
      pre.map (fun bs => (bs, (none : Option BServerError)))
        ++ (bad, some e)
          :: (runWorkers resp tlfID post
                (numWorkersFor (⟨pre ++ bad :: post⟩ : blockPutState) - 1)
                true (some e)).processed
    ∧ (doBlockPuts resp tlfID ⟨pre ++ bad :: post⟩).chanSends =
        bad.block
          :: (runWorkers resp tlfID post
                (numWorkersFor (⟨pre ++ bad :: post⟩ : blockPutState) - 1)
                true (some e)).chanSends := by
  have halive := numWorkersFor_ne_zero (⟨pre ++ bad :: post⟩ : blockPutState)
    (by simp)
  have hrun := runWorkers_success_front resp tlfID pre (bad :: post)
    (numWorkersFor (⟨pre ++ bad :: post⟩ : blockPutState)) false none hpre
    halive
  rw [runWorkers_recoverable_step resp tlfID bad post _ e uid halive hbad hrec
    hfile] at hrun
  constructor <;>
    simp only [doBlockPuts] <;>
    rw [hrun] <;>
    simp [successRun, failStep]

/-- Witness for doBlockPuts_recoverable_cancels at the concrete C2 batch:
the continuation run on the second entry observes the cancelled context. -/
theorem doBlockPuts_recoverable_cancels_witness :
    (doBlockPuts c2resp 0 ⟨[c2bad, c2other]⟩).processed =
      [(c2bad, some BServerError.blockDeleted),
       (c2other, some BServerError.canceled)] := by
  have h := (doBlockPuts_recoverable_cancels c2resp 0 [] [c2other] c2bad
    BServerError.blockDeleted 1 (by decide) (by decide) (by decide)
    (by decide)).1
  exact h.trans (by decide)

/-- doOneBlockPut sends nothing on blocksToRemoveChan when it returns nil,
and never sends more than one value. -/
theorem doOneBlockPut_chanSends_le (bserv : BServCall → Option BServerError)
    (tlfID : Nat) (bs : blockState) :
    ((doOneBlockPut bserv tlfID bs).err = none →
      (doOneBlockPut bserv tlfID bs).chanSends = [])
    ∧ (doOneBlockPut bserv tlfID bs).chanSends.length ≤ 1 := by
  unfold doOneBlockPut
  rcases hq : PutBlockCheckQuota bserv tlfID bs.blockPtr bs.readyBlockData
    with ⟨calls, warns, err0⟩
  rcases err0 with _ | e
  · rcases hcb : bs.syncedCb with _ | cbr
    · simp
    · rcases cbr with _ | e2
      · simp
      · constructor
        · intro h
          simp at h
        · simp only []
          split
          · split <;> simp
          · simp
  · constructor
    · intro h
      simp at h
    · simp only []
      split
      · split <;> simp
      · simp

/-- In every run, each value sent on blocksToRemoveChan is sent by a worker
that then exits, so a run started with `alive` live workers sends at most
`alive` values. -/
theorem runWorkers_chanSends_le (resp : Bool → BServCall → Option BServerError)
    (tlfID : Nat) (l : List blockState) :
    ∀ (alive : Nat) (canceled : Bool) (fe : Option BServerError),
      (runWorkers resp tlfID l alive canceled fe).chanSends.length ≤ alive := by
  induction l with
  | nil =>
    intro alive c fe
    simp [runWorkers_nil]
  | cons bs rest ih =>
    intro alive c fe
    by_cases ha : alive = 0
    · simp [runWorkers_cons, ha]
    · simp only [runWorkers_cons, if_neg ha]
      have hone := doOneBlockPut_chanSends_le (resp c) tlfID bs
      rcases herr : (doOneBlockPut (resp c) tlfID bs).err with _ | e <;>
        simp only [herr, List.length_append]
      · rw [hone.1 herr]
        simpa using ih alive c fe
      · have h1 := hone.2
        have h2 := ih (alive - 1) true
          (match fe with
           | none => some e
           | some e0 => some e0)
        omega

/-- Claim C9: the number of values sent on blocksToRemoveChan during a
doBlockPuts never exceeds the worker count the channel is sized to — each
worker exits at its first error, having sent at most one block — so no send
ever blocks. -/
theorem doBlockPuts_chanSends_bounded
    (resp : Bool → BServCall → Option BServerError) (tlfID : Nat)
    (bps : blockPutState) :
    (doBlockPuts resp tlfID bps).chanSends.length ≤ numWorkersFor bps := by
  simp only [doBlockPuts]
  exact runWorkers_chanSends_le resp tlfID bps.blockStates (numWorkersFor bps)
    false none

end KBFS
